/-
Verification of the jtbd repository's persistence and aggregation layer
(src/todo/db.py, src/buildit/db.py, src/dash/app.py, src/buildit/app.py),
shallowly embedded in Lean 4.

Modeling conventions:
- a SQLite table is a list of typed rows kept in rowid/insertion order
  (a SELECT without ORDER BY scans in that order);
- SQL ORDER BY is modeled as a stable insertion sort on the selected rows;
- SQLite INTEGER values (ids, priorities, the completed flag) are Int;
- nullable TEXT columns are Option String, NOT NULL ones are String;
- AUTOINCREMENT id assignment is an explicit nextId counter in the state;
- CURRENT_TIMESTAMP and datetime.now() become explicit now parameters;
- a statement that raises (constraint violation) is modeled by an Option
  or Except result, and the Python sqlite3 connection context manager's
  rollback-on-exception by returning the pre-call state in that case.
-/
import Mathlib

open List

/-! ### Todo store: class TodoDB in src/todo/db.py -/

/-- A row of the todos table (id INTEGER PRIMARY KEY AUTOINCREMENT,
title TEXT NOT NULL, description TEXT, due_date TEXT, priority INTEGER
DEFAULT 0, completed INTEGER DEFAULT 0, created_at TEXT DEFAULT
CURRENT_TIMESTAMP). -/
structure TodoRow where
  id : Int
  title : String
  description : Option String
  due_date : Option String
  priority : Int
  completed : Int
  created_at : String
  deriving DecidableEq, Repr

namespace TodoDB

/-- The todo store: the todos table plus the AUTOINCREMENT sequence.
A freshly initialized database is the empty table with next id 1. -/
structure State where
  rows : List TodoRow
  nextId : Int
  deriving DecidableEq, Repr

/-- The empty store produced by init_db on a fresh file. -/
def initState : State := { rows := [], nextId := 1 }

/-- The row order of ORDER BY priority DESC, created_at DESC:
row a may come before row b iff a has strictly larger priority, or equal
priority and created_at of a is at least that of b (TEXT comparison). -/
@[reducible] def todoOrd (a b : TodoRow) : Prop :=
  b.priority < a.priority ∨ (a.priority = b.priority ∧ b.created_at ≤ a.created_at)

instance : DecidableRel todoOrd := fun _ _ => inferInstanceAs (Decidable (_ ∨ _))

instance : IsTrans TodoRow todoOrd := by
  constructor
  intro a b c hab hbc
  rcases hab with h1 | ⟨h1, h2⟩ <;> rcases hbc with h3 | ⟨h3, h4⟩
  · exact Or.inl (by omega)
  · exact Or.inl (by omega)
  · exact Or.inl (by omega)
  · exact Or.inr ⟨by omega, le_trans h4 h2⟩

instance : IsTotal TodoRow todoOrd := by
  constructor
  intro a b
  rcases lt_trichotomy a.priority b.priority with h | h | h
  · exact Or.inr (Or.inl h)
  · rcases le_total a.created_at b.created_at with h2 | h2
    · exact Or.inr (Or.inr ⟨h.symm, h2⟩)
    · exact Or.inl (Or.inr ⟨h, h2⟩)
  · exact Or.inl (Or.inl h)

/-- add_todo: INSERT INTO todos (title, description, due_date, priority);
completed defaults to 0, created_at to the current timestamp, the id to
the next AUTOINCREMENT value, which is returned as cursor.lastrowid. -/
def add_todo (s : State) (title : String) (description : String)
    (due_date : Option String) (priority : Int) (now : String) : Int × State :=
  (s.nextId,
    { rows := s.rows ++
        [{ id := s.nextId, title := title,
           description := some description, due_date := due_date,
           priority := priority, completed := 0, created_at := now }],
      nextId := s.nextId + 1 })

/-- get_todos: SELECT ... FROM todos ORDER BY priority DESC, created_at DESC. -/
def get_todos (s : State) : List TodoRow :=
  insertionSort todoOrd s.rows

/-- The SQL expression ((completed | 1) - (completed & 1)) used by toggle_todo. -/
def toggleCompleted (c : Int) : Int :=
  Int.lor c 1 - Int.land c 1

/-- toggle_todo: UPDATE todos SET completed = ((completed | 1) - (completed & 1))
WHERE id = ?. Rows with a different id are untouched; if no row matches,
the UPDATE succeeds and changes nothing. -/
def toggle_todo (s : State) (todo_id : Int) : State :=
  { s with rows := s.rows.map fun r =>
      if r.id = todo_id then { r with completed := toggleCompleted r.completed } else r }

/-- delete_todo: DELETE FROM todos WHERE id = ?. -/
def delete_todo (s : State) (todo_id : Int) : State :=
  { s with rows := s.rows.filter fun r => r.id ≠ todo_id }

/-- update_todo: UPDATE todos SET title = ?, description = ?, due_date = ?,
priority = ? WHERE id = ?. -/
def update_todo (s : State) (todo_id : Int) (title : String)
    (description : String) (due_date : Option String) (priority : Int) : State :=
  { s with rows := s.rows.map fun r =>
      if r.id = todo_id then
        { r with title := title, description := some description,
                 due_date := due_date, priority := priority }
      else r }

end TodoDB

/-- One record of the JSON-friendly document produced by export_todos and
consumed by import_todos. completed is serialized as bool(completed);
created_at and due_date are read back with dict.get, so they may be
absent (None) in a hand-written document. -/
structure TodoDoc where
  id : Int
  title : String
  description : Option String
  due_date : Option String
  priority : Int
  completed : Bool
  created_at : Option String
  deriving DecidableEq, Repr

namespace TodoDB

/-- export_todos: SELECT ... FROM todos (scan order), each row rendered
with completed as bool(row) (nonzero integers become true). -/
def export_todos (s : State) : List TodoDoc :=
  s.rows.map fun r =>
    { id := r.id, title := r.title, description := r.description,
      due_date := r.due_date, priority := r.priority,
      completed := decide (r.completed ≠ (0 : Int)), created_at := some r.created_at }

/-- The rows appended by import_todos: each document record is inserted
WITHOUT its id column, so it receives a fresh AUTOINCREMENT id; completed
is written as 1 if truthy else 0; a missing created_at falls back to
datetime.now().isoformat(). -/
def importedRows (startId : Int) (docs : List TodoDoc) (now : String) : List TodoRow :=
  match docs with
  | [] => []
  | d :: ds =>
    { id := startId, title := d.title, description := d.description,
      due_date := d.due_date, priority := d.priority,
      completed := if d.completed then 1 else 0,
      created_at := d.created_at.getD now } :: importedRows (startId + 1) ds now

/-- import_todos: a plain INSERT loop over the document. It does not clear
the table first and it does not supply ids. -/
def import_todos (s : State) (docs : List TodoDoc) (now : String) : State :=
  { rows := s.rows ++ importedRows s.nextId docs now,
    nextId := s.nextId + docs.length }

/-- Substring occurrence test: Python uses the in operator, SQLite uses
LIKE with pattern %q%. String.splitOn returns more than one part exactly
when the separator occurs; an empty pattern matches everything. -/
def strContainsSub (s q : String) : Bool :=
  q.isEmpty || (s.splitOn q).length != 1

/-- SQLite LIKE ? with pattern %query% against a non-NULL text value.
The default LIKE is case-insensitive for ASCII, modeled by lowering both
sides. -/
def likeContains (s q : String) : Bool :=
  strContainsSub s.toLower q.toLower

/-- search_todos: WHERE title LIKE '%q%' OR description LIKE '%q%'
ORDER BY priority DESC, created_at DESC. The empty query also runs with
pattern %%, and a NULL description never matches LIKE. -/
def search_todos (s : State) (query : String) : List TodoRow :=
  insertionSort todoOrd (s.rows.filter fun r =>
    likeContains r.title query ||
      (match r.description with
       | some d => likeContains d query
       | none => false))

end TodoDB


/-! ### The SQL toggle expression flips the lowest bit of any integer -/

theorem natLorOne (n : ℕ) : n ||| 1 = 2 * (n / 2) + 1 := by
  apply Nat.eq_of_testBit_eq
  intro i
  cases i with
  | zero =>
    have h1 : (2 * (n / 2) + 1) % 2 = 1 := by omega
    simp [Nat.testBit_or, h1]
  | succ i =>
    have h2 : (2 * (n / 2) + 1) / 2 = n / 2 := by omega
    rw [Nat.testBit_or, Nat.testBit_add_one n, Nat.testBit_add_one 1,
        Nat.testBit_add_one (2 * (n / 2) + 1), h2]
    simp

theorem natLdiffOne (n : ℕ) : Nat.ldiff n 1 = 2 * (n / 2) := by
  apply Nat.eq_of_testBit_eq
  intro i
  cases i with
  | zero =>
    rw [Nat.testBit_ldiff]
    have h1 : (2 * (n / 2)) % 2 = 0 := by omega
    simp [h1]
  | succ i =>
    rw [Nat.testBit_ldiff, Nat.testBit_add_one n, Nat.testBit_add_one 1,
        Nat.testBit_add_one (2 * (n / 2))]
    have h2 : (2 * (n / 2)) / 2 = n / 2 := by omega
    rw [h2]
    simp

theorem natOneLdiff (n : ℕ) : Nat.ldiff 1 n = 1 - n % 2 := by
  apply Nat.eq_of_testBit_eq
  intro i
  cases i with
  | zero =>
    rw [Nat.testBit_ldiff]
    rcases Nat.mod_two_eq_zero_or_one n with h | h <;> simp [h]
  | succ i =>
    rw [Nat.testBit_ldiff, Nat.testBit_add_one 1, Nat.testBit_add_one n,
        Nat.testBit_add_one (1 - n % 2)]
    have h3 : (1 - n % 2) / 2 = 0 := by omega
    rw [h3]
    simp

namespace TodoDB

/-- Arithmetic characterization of ((c | 1) - (c & 1)) over all SQLite
integers: it adds 1 to an even value and subtracts 1 from an odd one. -/
theorem toggleCompleted_eq (c : Int) : toggleCompleted c = c + 1 - 2 * (c % 2) := by
  cases c with
  | ofNat n =>
    have h1 : Int.lor (Int.ofNat n) 1 = Int.ofNat (n ||| 1) := rfl
    have h2 : Int.land (Int.ofNat n) 1 = Int.ofNat (n &&& 1) := rfl
    unfold toggleCompleted
    rw [h1, h2, natLorOne, Nat.and_one_is_mod]
    simp only [Int.ofNat_eq_coe]
    omega
  | negSucc n =>
    have h1 : Int.lor (Int.negSucc n) 1 = Int.negSucc (Nat.ldiff n 1) := rfl
    have h2 : Int.land (Int.negSucc n) 1 = Int.ofNat (Nat.ldiff 1 n) := rfl
    unfold toggleCompleted
    rw [h1, h2, natLdiffOne, natOneLdiff]
    simp only [Int.negSucc_eq, Int.ofNat_eq_coe]
    omega

theorem toggleCompleted_toggleCompleted (c : Int) :
    toggleCompleted (toggleCompleted c) = c := by
  rw [toggleCompleted_eq, toggleCompleted_eq]
  omega

end TodoDB

/-! ### Project/issue/comment/tag store: class BuildDB in src/buildit/db.py -/

/-- A row of the projects table (name, status, created_date, last_updated
are NOT NULL; description and version are nullable). -/
structure Project where
  id : Int
  name : String
  description : Option String
  version : Option String
  status : String
  created_date : String
  last_updated : String
  deriving DecidableEq, Repr

/-- A row of the issues table. project_id is a declared (unenforced)
foreign key and nullable; tags holds a JSON-serialized string. -/
structure Issue where
  id : Int
  project_id : Option Int
  type : String
  title : String
  description : Option String
  priority : Int
  status : String
  assigned_to : Option String
  created_date : String
  due_date : Option String
  tags : Option String
  deriving DecidableEq, Repr

/-- A row of the comments table (all columns but id are NOT NULL). -/
structure Comment where
  id : Int
  issue_id : Int
  content : String
  author : String
  created_date : String
  deriving DecidableEq, Repr

/-- A row of the tags table (name is UNIQUE NOT NULL). -/
structure Tag where
  id : Int
  name : String
  color : String
  deriving DecidableEq, Repr

/-- The dictionary produced by export_data and consumed by import_data:
one array of plain records per table. -/
structure BuildDoc where
  projects : List Project
  issues : List Issue
  comments : List Comment
  tags : List Tag
  deriving DecidableEq, Repr

namespace BuildDB

/-- The project store: the four tables plus the AUTOINCREMENT sequence of
the tags table (the only one whose insert id the claims observe). -/
structure State where
  projects : List Project
  issues : List Issue
  comments : List Comment
  tags : List Tag
  nextTagId : Int
  deriving DecidableEq, Repr

/-- Row order of ORDER BY priority DESC, created_date DESC on issues. -/
@[reducible] def issueOrd (a b : Issue) : Prop :=
  b.priority < a.priority ∨ (a.priority = b.priority ∧ b.created_date ≤ a.created_date)

instance : DecidableRel issueOrd := fun _ _ => inferInstanceAs (Decidable (_ ∨ _))

instance : IsTrans Issue issueOrd := by
  constructor
  intro a b c hab hbc
  rcases hab with h1 | ⟨h1, h2⟩ <;> rcases hbc with h3 | ⟨h3, h4⟩
  · exact Or.inl (by omega)
  · exact Or.inl (by omega)
  · exact Or.inl (by omega)
  · exact Or.inr ⟨by omega, le_trans h4 h2⟩

instance : IsTotal Issue issueOrd := by
  constructor
  intro a b
  rcases lt_trichotomy a.priority b.priority with h | h | h
  · exact Or.inr (Or.inl h)
  · rcases le_total a.created_date b.created_date with h2 | h2
    · exact Or.inr (Or.inr ⟨h.symm, h2⟩)
    · exact Or.inl (Or.inr ⟨h, h2⟩)
  · exact Or.inl (Or.inl h)

/-- Row order of ORDER BY created_date ASC on comments. -/
@[reducible] def commentOrd (a b : Comment) : Prop :=
  a.created_date ≤ b.created_date

instance : DecidableRel commentOrd := fun _ _ => inferInstanceAs (Decidable (_ ≤ _))

instance : IsTrans Comment commentOrd :=
  ⟨fun _ _ _ hab hbc => le_trans hab hbc⟩

instance : IsTotal Comment commentOrd :=
  ⟨fun a b => le_total a.created_date b.created_date⟩

/-- get_issues: SELECT * FROM issues [WHERE project_id = ?]
ORDER BY priority DESC, created_date DESC. A NULL project_id row never
matches the WHERE form. -/
def get_issues (s : State) (project_id : Option Int) : List Issue :=
  match project_id with
  | some pid => insertionSort issueOrd (s.issues.filter fun i => i.project_id = some pid)
  | none => insertionSort issueOrd s.issues

/-- get_comments: SELECT * FROM comments WHERE issue_id = ?
ORDER BY created_date ASC. -/
def get_comments (s : State) (issue_id : Int) : List Comment :=
  insertionSort commentOrd (s.comments.filter fun c => c.issue_id = issue_id)

/-- delete_project: DELETE the comments of the project's issues, then the
issues with that project_id, then the project row itself; the returned
Bool is rowcount over 0 of the last DELETE. -/
def delete_project (s : State) (project_id : Int) : Bool × State :=
  let pidIssueIds := (s.issues.filter fun i => i.project_id = some project_id).map Issue.id
  let comments' := s.comments.filter fun c => ¬ c.issue_id ∈ pidIssueIds
  let issues' := s.issues.filter fun i => ¬ i.project_id = some project_id
  let projects' := s.projects.filter fun p => p.id ≠ project_id
  (decide (projects'.length < s.projects.length),
   { s with projects := projects', issues := issues', comments := comments' })

/-- add_tag: INSERT INTO tags (name, color) with an AUTOINCREMENT id,
returning cursor.lastrowid. A duplicate name violates UNIQUE: the
IntegrityError propagates to the caller and the connection context
manager rolls the transaction back, leaving the table unchanged. -/
def add_tag (s : State) (name : String) (color : String) : Except Unit Int × State :=
  if s.tags.any fun t => t.name = name then
    (Except.error (), s)
  else
    (Except.ok s.nextTagId,
     { s with tags := s.tags ++ [{ id := s.nextTagId, name := name, color := color }],
              nextTagId := s.nextTagId + 1 })

/-- export_data: SELECT * on each of the four tables in scan order. -/
def export_data (s : State) : BuildDoc :=
  { projects := s.projects, issues := s.issues, comments := s.comments, tags := s.tags }

/-- A sequential INSERT loop with explicit ids into a table: it fails
with IntegrityError exactly when a PRIMARY KEY value repeats among the
inserted rows (the table was cleared first, so only in-document
collisions can occur). -/
def insertAll {α : Type} (getId : α → Int) (tbl : List α) : List α → Option (List α)
  | [] => some tbl
  | x :: xs =>
    if tbl.any fun y => getId y = getId x then none
    else insertAll getId (tbl ++ [x]) xs

/-- The INSERT loop for tags, whose table also declares UNIQUE(name). -/
def insertAllTags (tbl : List Tag) : List Tag → Option (List Tag)
  | [] => some tbl
  | x :: xs =>
    if tbl.any fun y => y.id = x.id ∨ y.name = x.name then none
    else insertAllTags (tbl ++ [x]) xs

/-- import_data: inside one transaction DELETE every row of comments,
issues, projects and tags, then INSERT the document rows verbatim with
their supplied ids, project by project, issue by issue, and so on.
On success the transaction commits and True is returned; on any failure
the except-clause returns False and the connection context manager rolls
the whole transaction back, so the store keeps its pre-import state.
Explicit-id inserts advance the AUTOINCREMENT sequence past the largest
inserted id. -/
def import_data (s : State) (doc : BuildDoc) : Bool × State :=
  match insertAll Project.id [] doc.projects, insertAll Issue.id [] doc.issues,
        insertAll Comment.id [] doc.comments, insertAllTags [] doc.tags with
  | some ps, some iss, some cs, some ts =>
    (true, { projects := ps, issues := iss, comments := cs, tags := ts,
             nextTagId := doc.tags.foldl (fun acc t => max acc (t.id + 1)) s.nextTagId })
  | _, _, _, _ => (false, s)

end BuildDB

/-! ### Dashboard aggregation: class TodoStats in src/dash/app.py -/

namespace TodoStats

/-- The method that computes the 7-day activity histogram. dateOf models
the calendar-day number of a created_at text (the SQL date function);
pyToday models datetime.now().date() and sqlNowDate the day of SQL
date('now') (Python now is local time, SQL now is UTC, so they can
differ by one day). dates lists the 7 day numbers pyToday-6 .. pyToday,
oldest first; the SELECT groups the rows on or after sqlNowDate-7 by
day, and the dict lookup with default 0 yields, for each listed day, the
count of grouped rows of that day. -/
def get_daily_activity (dateOf : String → Int) (pyToday sqlNowDate : Int)
    (s : TodoDB.State) : List Nat :=
  let dates := (List.range 7).map fun i : ℕ => pyToday - (6 - (i : Int))
  let recent := s.rows.filter fun r => sqlNowDate - 7 ≤ dateOf r.created_at
  dates.map fun d => (recent.filter fun r => dateOf r.created_at = d).length

end TodoStats

/-! ### Search modal: class SearchModal in src/buildit/app.py -/

namespace SearchModal

/-- The rows the modal adds to its results table in projects view: an
empty term short-circuits to no rows at all; otherwise the term and the
searched fields are lowercased and matched by Python substring
containment over name and description (None read as the empty string). -/
def update_results_projects (projects : List Project) (search_term : String) :
    List Project :=
  if search_term = "" then []
  else
    let t := search_term.toLower
    projects.filter fun p =>
      TodoDB.strContainsSub p.name.toLower t ||
        TodoDB.strContainsSub (p.description.getD "").toLower t

/-- The rows the modal adds in issues view: an empty term yields no rows;
otherwise title, description, assigned_to and type are matched. -/
def update_results_issues (issues : List Issue) (search_term : String) :
    List Issue :=
  if search_term = "" then []
  else
    let t := search_term.toLower
    issues.filter fun i =>
      TodoDB.strContainsSub i.title.toLower t ||
        TodoDB.strContainsSub (i.description.getD "").toLower t ||
        TodoDB.strContainsSub (i.assigned_to.getD "").toLower t ||
        TodoDB.strContainsSub i.type.toLower t

end SearchModal

namespace TodoDB

/-- The todo-store states reachable from a freshly initialized database
by the storage operations of class TodoDB. -/
inductive Reachable : State → Prop where
  | init : Reachable initState
  | add (s : State) (title description : String) (due_date : Option String)
      (priority : Int) (now : String) :
      Reachable s → Reachable (add_todo s title description due_date priority now).2
  | toggle (s : State) (todo_id : Int) :
      Reachable s → Reachable (toggle_todo s todo_id)
  | del (s : State) (todo_id : Int) :
      Reachable s → Reachable (delete_todo s todo_id)
  | update (s : State) (todo_id : Int) (title description : String)
      (due_date : Option String) (priority : Int) :
      Reachable s → Reachable (update_todo s todo_id title description due_date priority)
  | imp (s : State) (docs : List TodoDoc) (now : String) :
      Reachable s → Reachable (import_todos s docs now)

end TodoDB

/-! ### Helper lemmas -/

theorem toLower_empty_eq : "".toLower = "" := by
  unfold String.toLower String.map
  rw [String.mapAux]
  simp [String.atEnd]
  intro h
  exact (h rfl).elim

namespace TodoDB

theorem likeContains_empty (x : String) : likeContains x "" = true := by
  unfold likeContains strContainsSub
  rw [toLower_empty_eq]
  rfl

theorem importedRows_length (docs : List TodoDoc) :
    ∀ (startId : Int) (now : String),
      (importedRows startId docs now).length = docs.length := by
  induction docs with
  | nil => intro k now; rfl
  | cons d ds ih =>
    intro k now
    simp only [importedRows, List.length_cons]
    rw [ih]

theorem importedRows_completed (docs : List TodoDoc) :
    ∀ (startId : Int) (now : String),
      ∀ r ∈ importedRows startId docs now, r.completed = 0 ∨ r.completed = 1 := by
  induction docs with
  | nil => intro k now r hr; simp [importedRows] at hr
  | cons d ds ih =>
    intro k now r hr
    simp only [importedRows, List.mem_cons] at hr
    rcases hr with hr | hr
    · subst hr
      by_cases hc : d.completed <;> simp [hc]
    · exact ih (k + 1) now r hr

end TodoDB

namespace BuildDB

theorem insertAll_eq {α : Type} (getId : α → Int) :
    ∀ (xs tbl res : List α), insertAll getId tbl xs = some res → res = tbl ++ xs := by
  intro xs
  induction xs with
  | nil =>
    intro tbl res h
    simp only [insertAll, Option.some.injEq] at h
    simp [h]
  | cons x xs ih =>
    intro tbl res h
    unfold insertAll at h
    by_cases hc : tbl.any fun y => getId y = getId x
    · simp [hc] at h
    · simp only [hc, if_false, Bool.false_eq_true, ite_false] at h
      have h2 := ih (tbl ++ [x]) res h
      simp [h2]

theorem insertAllTags_eq :
    ∀ (xs tbl res : List Tag), insertAllTags tbl xs = some res → res = tbl ++ xs := by
  intro xs
  induction xs with
  | nil =>
    intro tbl res h
    simp only [insertAllTags, Option.some.injEq] at h
    simp [h]
  | cons x xs ih =>
    intro tbl res h
    unfold insertAllTags at h
    by_cases hc : tbl.any fun y => y.id = x.id ∨ y.name = x.name
    · rw [if_pos hc] at h
      exact Option.noConfusion h
    · simp only [hc, if_false, Bool.false_eq_true, ite_false] at h
      have h2 := ih (tbl ++ [x]) res h
      simp [h2]

theorem import_data_spec (s : State) (doc : BuildDoc) :
    import_data s doc = (false, s) ∨
    ((import_data s doc).1 = true ∧
     (import_data s doc).2.projects = doc.projects ∧
     (import_data s doc).2.issues = doc.issues ∧
     (import_data s doc).2.comments = doc.comments ∧
     (import_data s doc).2.tags = doc.tags) := by
  unfold import_data
  cases h1 : insertAll Project.id [] doc.projects with
  | none => left; rfl
  | some ps =>
    cases h2 : insertAll Issue.id [] doc.issues with
    | none => left; rfl
    | some iss =>
      cases h3 : insertAll Comment.id [] doc.comments with
      | none => left; rfl
      | some cs =>
        cases h4 : insertAllTags [] doc.tags with
        | none => left; rfl
        | some ts =>
          right
          refine ⟨rfl, ?_, ?_, ?_, ?_⟩
          · simpa using insertAll_eq Project.id doc.projects [] ps h1
          · simpa using insertAll_eq Issue.id doc.issues [] iss h2
          · simpa using insertAll_eq Comment.id doc.comments [] cs h3
          · simpa using insertAllTags_eq doc.tags [] ts h4

end BuildDB

/-! ### Claim C1 -/

/-- A one-row todo store on which the todo half of the round-trip claim
fails. -/
def tsOne : TodoDB.State :=
  { rows := [{ id := 1, title := "a", description := some "", due_date := none,
               priority := 0, completed := 0, created_at := "2024-01-01 00:00:00" }],
    nextId := 2 }

/-- Claim C1, counterexample: for the todo store the claimed export,
import, export round trip already fails on a store holding one todo,
because import_todos appends a re-identified copy instead of replacing
the table. -/
theorem roundtrip_claim_counterexample :
    TodoDB.export_todos
        (TodoDB.import_todos tsOne (TodoDB.export_todos tsOne) "2024-01-02T00:00:00") ≠
      TodoDB.export_todos tsOne := by
  decide

/-- Claim C1, amended: the export-import-export round trip yields a
field-for-field identical document for the project store on every state;
for the todo store, import_todos appends the document rows under fresh
ids and deletes nothing, so the round trip holds exactly when the store
is empty. -/
theorem export_import_roundtrip_amended :
    (∀ bs : BuildDB.State,
      BuildDB.export_data (BuildDB.import_data bs (BuildDB.export_data bs)).2 =
        BuildDB.export_data bs) ∧
    (∀ (ts : TodoDB.State) (now : String),
      TodoDB.export_todos (TodoDB.import_todos ts (TodoDB.export_todos ts) now) =
          TodoDB.export_todos ts ↔
        ts.rows = []) := by
  constructor
  · intro bs
    rcases BuildDB.import_data_spec bs (BuildDB.export_data bs) with h | ⟨_, hp, hi, hc, ht⟩
    · rw [h]
    · rw [show BuildDB.export_data (BuildDB.import_data bs (BuildDB.export_data bs)).2 =
            ({ projects := (BuildDB.import_data bs (BuildDB.export_data bs)).2.projects,
               issues := (BuildDB.import_data bs (BuildDB.export_data bs)).2.issues,
               comments := (BuildDB.import_data bs (BuildDB.export_data bs)).2.comments,
               tags := (BuildDB.import_data bs (BuildDB.export_data bs)).2.tags } : BuildDoc)
          from rfl, hp, hi, hc, ht]
  · intro ts now
    constructor
    · intro h
      have hlen := congrArg List.length h
      simp only [TodoDB.export_todos, TodoDB.import_todos, List.length_map,
        List.length_append, TodoDB.importedRows_length] at hlen
      exact List.length_eq_zero.mp (by omega)
    · intro h
      obtain ⟨rows, nid⟩ := ts
      dsimp only at h
      subst h
      rfl

/-! ### Claim C2 -/

/-- Claim C2: import_data either succeeds, returning true with all four
tables holding exactly the document rows with their supplied ids, or
fails, returning false (never raising) with the store in its pre-import
state. -/
theorem import_data_replace_all_or_unchanged (s : BuildDB.State) (doc : BuildDoc) :
    ((BuildDB.import_data s doc).1 = true ∧
     (BuildDB.import_data s doc).2.projects = doc.projects ∧
     (BuildDB.import_data s doc).2.issues = doc.issues ∧
     (BuildDB.import_data s doc).2.comments = doc.comments ∧
     (BuildDB.import_data s doc).2.tags = doc.tags) ∨
    BuildDB.import_data s doc = (false, s) :=
  (BuildDB.import_data_spec s doc).symm

/-! ### Claim C4 -/

/-- Claim C4: get_todos returns a permutation of the stored todos sorted
by priority descending with ties broken by created_at descending, and on
the concrete store built by inserting priorities 5, 1, 3 in that order it
returns them in priority order 5, 3, 1. -/
theorem get_todos_ordering :
    (∀ s : TodoDB.State,
      List.Perm (TodoDB.get_todos s) s.rows ∧
        List.Sorted TodoDB.todoOrd (TodoDB.get_todos s)) ∧
    (TodoDB.get_todos
        (TodoDB.add_todo
          (TodoDB.add_todo
            (TodoDB.add_todo TodoDB.initState "a" "" none 5 "2024-01-01T10:00:00").2
            "b" "" none 1 "2024-01-01T10:00:01").2
          "c" "" none 3 "2024-01-01T10:00:02").2).map TodoRow.priority = [5, 3, 1] := by
  constructor
  · intro s
    exact ⟨List.perm_insertionSort TodoDB.todoOrd s.rows,
           List.sorted_insertionSort TodoDB.todoOrd s.rows⟩
  · decide

/-! ### Claim C5 -/

/-- Claim C5: the storage-level search with the empty query returns every
todo, in the same order as get_todos, while the UI-level search modal
with an empty term yields no result rows in either view. -/
theorem empty_query_asymmetry :
    (∀ s : TodoDB.State, TodoDB.search_todos s "" = TodoDB.get_todos s) ∧
    (∀ projects : List Project, SearchModal.update_results_projects projects "" = []) ∧
    (∀ issues : List Issue, SearchModal.update_results_issues issues "" = []) := by
  refine ⟨fun s => ?_, fun projects => rfl, fun issues => rfl⟩
  unfold TodoDB.search_todos TodoDB.get_todos
  congr 1
  apply List.filter_eq_self.mpr
  intro r _
  simp [TodoDB.likeContains_empty]

/-! ### Claim C6 -/

/-- Claim C6: toggling a stored todo twice restores its completed value
and leaves the whole store equal to its initial state. -/
theorem toggle_todo_involution (s : TodoDB.State) (todo_id : Int)
    (hexist : ∃ r ∈ s.rows, r.id = todo_id) :
    TodoDB.toggle_todo (TodoDB.toggle_todo s todo_id) todo_id = s := by
  obtain ⟨rows, nid⟩ := s
  simp only [TodoDB.toggle_todo]
  congr 1
  rw [List.map_map]
  have hpt : ∀ r ∈ rows,
      ((fun r : TodoRow =>
          if r.id = todo_id then
            { r with completed := TodoDB.toggleCompleted r.completed } else r) ∘
        fun r : TodoRow =>
          if r.id = todo_id then
            { r with completed := TodoDB.toggleCompleted r.completed } else r) r = id r := by
    intro r _
    obtain ⟨rid, rtitle, rdesc, rdue, rpri, rcomp, rcreated⟩ := r
    by_cases h : rid = todo_id
    · simp [Function.comp, h, TodoDB.toggleCompleted_toggleCompleted]
    · simp [Function.comp, h]
  rw [List.map_congr_left hpt, List.map_id]

/-- A store with one todo of id 1 on which claim C6 is instantiated. -/
def tsToggle : TodoDB.State :=
  { rows := [{ id := 1, title := "a", description := some "", due_date := none,
               priority := 2, completed := 0, created_at := "2024-01-01 00:00:00" }],
    nextId := 2 }

theorem toggle_todo_involution_witness :
    TodoDB.toggle_todo (TodoDB.toggle_todo tsToggle 1) 1 = tsToggle :=
  toggle_todo_involution tsToggle 1 (by decide)

/-! ### Claim C7 -/

/-- Claim C7: on an id no stored todo has, toggle_todo, delete_todo and
update_todo all return (no exception is modeled because none can be
raised) and leave the store unchanged. -/
theorem absent_id_noops (s : TodoDB.State) (todo_id : Int)
    (habsent : ∀ r ∈ s.rows, r.id ≠ todo_id) :
    TodoDB.toggle_todo s todo_id = s ∧
    TodoDB.delete_todo s todo_id = s ∧
    ∀ (title description : String) (due_date : Option String) (priority : Int),
      TodoDB.update_todo s todo_id title description due_date priority = s := by
  obtain ⟨rows, nid⟩ := s
  refine ⟨?_, ?_, fun title description due_date priority => ?_⟩
  · simp only [TodoDB.toggle_todo]
    congr 1
    refine (List.map_congr_left ?_).trans (List.map_id rows)
    intro r hr
    simp [habsent r hr]
  · simp only [TodoDB.delete_todo]
    congr 1
    apply List.filter_eq_self.mpr
    intro r hr
    simp [habsent r hr]
  · simp only [TodoDB.update_todo]
    congr 1
    refine (List.map_congr_left ?_).trans (List.map_id rows)
    intro r hr
    simp [habsent r hr]

/-- A store with one todo of id 1 on which claim C7 is instantiated at
the absent id 2. -/
def tsAbsent : TodoDB.State :=
  { rows := [{ id := 1, title := "a", description := some "", due_date := none,
               priority := 0, completed := 1, created_at := "2024-01-01 00:00:00" }],
    nextId := 2 }

theorem absent_id_noops_witness :
    TodoDB.toggle_todo tsAbsent 2 = tsAbsent ∧
    TodoDB.delete_todo tsAbsent 2 = tsAbsent ∧
    TodoDB.update_todo tsAbsent 2 "x" "y" none 4 = tsAbsent :=
  ⟨(absent_id_noops tsAbsent 2 (by decide)).1,
   (absent_id_noops tsAbsent 2 (by decide)).2.1,
   (absent_id_noops tsAbsent 2 (by decide)).2.2 "x" "y" none 4⟩

/-! ### Claim C8 -/

/-- Claim C8: the 7-day activity computation returns one count per
calendar day for the 7 trailing days pyToday-6 .. pyToday, oldest first,
and the entry of each listed day is exactly the number of todos created
on that day (0 when there are none). The hypothesis says the SQL UTC day
is at most one day ahead of the Python local day, which holds for real
clocks and makes the SQL cutoff of seven days before now at most the
oldest listed day. -/
theorem daily_activity_histogram (dateOf : String → Int) (pyToday sqlNowDate : Int)
    (s : TodoDB.State) (hskew : sqlNowDate ≤ pyToday + 1) :
    TodoStats.get_daily_activity dateOf pyToday sqlNowDate s =
      (List.range 7).map fun i : ℕ =>
        (s.rows.filter fun r => dateOf r.created_at = pyToday - (6 - (i : Int))).length := by
  simp only [TodoStats.get_daily_activity]
  rw [List.map_map]
  apply List.map_congr_left
  intro i hi
  simp only [Function.comp]
  rw [List.filter_filter]
  congr 1
  apply List.filter_congr
  intro r _
  by_cases h : dateOf r.created_at = pyToday - (6 - (i : Int))
  · simp [h]
    omega
  · simp [h]

theorem daily_activity_histogram_witness :
    (0 : Int) ≤ 0 + 1 ∧
    TodoStats.get_daily_activity (fun _ => 0) 0 0 TodoDB.initState =
      ((List.range 7).map fun i : ℕ =>
        (TodoDB.initState.rows.filter fun _ => (0 : Int) = 0 - (6 - (i : Int))).length) :=
  ⟨by decide, daily_activity_histogram (fun _ => 0) 0 0 TodoDB.initState (by decide)⟩

/-! ### Claim C9 -/

/-- Claim C9: every reachable todo-store state stores completed as 0 or
1; moreover add_todo appends a todo with completed 0, the toggle formula
maps 0 to 1 and 1 to 0, update_todo leaves the completed column
untouched, and import_todos writes only completed 0 or 1. -/
theorem completed_flag_invariant :
    (∀ s : TodoDB.State, TodoDB.Reachable s →
      ∀ r ∈ s.rows, r.completed = 0 ∨ r.completed = 1) ∧
    TodoDB.toggleCompleted 0 = 1 ∧ TodoDB.toggleCompleted 1 = 0 ∧
    (∀ (s : TodoDB.State) (title description : String) (due_date : Option String)
        (priority : Int) (now : String),
      ((TodoDB.add_todo s title description due_date priority now).2.rows.map
          TodoRow.completed) =
        s.rows.map TodoRow.completed ++ [0]) ∧
    (∀ (s : TodoDB.State) (todo_id : Int) (title description : String)
        (due_date : Option String) (priority : Int),
      ((TodoDB.update_todo s todo_id title description due_date priority).rows.map
          TodoRow.completed) =
        s.rows.map TodoRow.completed) ∧
    (∀ (startId : Int) (docs : List TodoDoc) (now : String),
      ∀ r ∈ TodoDB.importedRows startId docs now,
        r.completed = 0 ∨ r.completed = 1) := by
  refine ⟨?_, by decide, by decide, ?_, ?_, ?_⟩
  · intro s hs
    induction hs with
    | init => intro r hr; simp [TodoDB.initState] at hr
    | add s title description due_date priority now _hs ih =>
      intro r hr
      simp only [TodoDB.add_todo, List.mem_append, List.mem_singleton] at hr
      rcases hr with hr | hr
      · exact ih r hr
      · subst hr; left; rfl
    | toggle s todo_id _hs ih =>
      intro r hr
      simp only [TodoDB.toggle_todo] at hr
      rcases List.mem_map.mp hr with ⟨a, ha, rfl⟩
      by_cases h : a.id = todo_id
      · simp only [if_pos h]
        rcases ih a ha with h0 | h1
        · right
          show TodoDB.toggleCompleted a.completed = 1
          rw [h0]
          decide
        · left
          show TodoDB.toggleCompleted a.completed = 0
          rw [h1]
          decide
      · simp only [if_neg h]
        exact ih a ha
    | del s todo_id _hs ih =>
      intro r hr
      simp only [TodoDB.delete_todo] at hr
      exact ih r (List.mem_filter.mp hr).1
    | update s todo_id title description due_date priority _hs ih =>
      intro r hr
      simp only [TodoDB.update_todo] at hr
      rcases List.mem_map.mp hr with ⟨a, ha, rfl⟩
      by_cases h : a.id = todo_id
      · simp only [if_pos h]
        exact ih a ha
      · simp only [if_neg h]
        exact ih a ha
    | imp s docs now _hs ih =>
      intro r hr
      simp only [TodoDB.import_todos, List.mem_append] at hr
      rcases hr with hr | hr
      · exact ih r hr
      · exact TodoDB.importedRows_completed docs s.nextId now r hr
  · intro s title description due_date priority now
    simp [TodoDB.add_todo]
  · intro s todo_id title description due_date priority
    simp only [TodoDB.update_todo]
    rw [List.map_map]
    apply List.map_congr_left
    intro a _
    by_cases h : a.id = todo_id
    · simp [Function.comp, h]
    · simp [Function.comp, h]
  · exact fun startId docs now => TodoDB.importedRows_completed docs startId now

theorem completed_flag_invariant_witness :
    ({ id := 1, title := "a", description := some "", due_date := none, priority := 0,
       completed := 0, created_at := "t" } : TodoRow).completed = 0 ∨
    ({ id := 1, title := "a", description := some "", due_date := none, priority := 0,
       completed := 0, created_at := "t" } : TodoRow).completed = 1 :=
  completed_flag_invariant.1 (TodoDB.add_todo TodoDB.initState "a" "" none 0 "t").2
    (TodoDB.Reachable.add TodoDB.initState "a" "" none 0 "t" TodoDB.Reachable.init)
    { id := 1, title := "a", description := some "", due_date := none, priority := 0,
      completed := 0, created_at := "t" } (by decide)

/-! ### Claim C10 -/

/-- Claim C10: add_tag with a name an existing tag already carries fails
with an error that reaches the caller and leaves the tags table
unchanged; with a fresh name it appends the tag under the next sequence
id and returns that id. -/
theorem add_tag_unique_name (s : BuildDB.State) (name color : String) :
    ((∃ t ∈ s.tags, t.name = name) →
      BuildDB.add_tag s name color = (Except.error (), s)) ∧
    ((∀ t ∈ s.tags, t.name ≠ name) →
      BuildDB.add_tag s name color =
        (Except.ok s.nextTagId,
         { s with
             tags := s.tags ++ [{ id := s.nextTagId, name := name, color := color }],
             nextTagId := s.nextTagId + 1 })) := by
  constructor
  · rintro ⟨t, ht, hname⟩
    have hany : (s.tags.any fun t => t.name = name) = true :=
      List.any_eq_true.mpr ⟨t, ht, by simp [hname]⟩
    unfold BuildDB.add_tag
    rw [if_pos hany]
  · intro h
    have hany : ¬ (s.tags.any fun t => t.name = name) = true := by
      intro hany
      rcases List.any_eq_true.mp hany with ⟨t, ht, hname⟩
      exact h t ht (by simpa using hname)
    unfold BuildDB.add_tag
    rw [if_neg hany]

/-- A store with a single tag named a, on which claim C10 is
instantiated once with the clashing name a and once with the fresh
name b. -/
def bsTagged : BuildDB.State :=
  { projects := [], issues := [], comments := [],
    tags := [{ id := 1, name := "a", color := "#ffffff" }], nextTagId := 2 }

theorem add_tag_unique_name_witness :
    BuildDB.add_tag bsTagged "a" "x" = (Except.error (), bsTagged) ∧
    BuildDB.add_tag bsTagged "b" "y" =
      (Except.ok bsTagged.nextTagId,
       { bsTagged with
           tags := bsTagged.tags ++ [{ id := bsTagged.nextTagId, name := "b", color := "y" }],
           nextTagId := bsTagged.nextTagId + 1 }) :=
  ⟨(add_tag_unique_name bsTagged "a" "x").1 (by decide),
   (add_tag_unique_name bsTagged "b" "y").2 (by decide)⟩

/-! ### Claim C3 -/

/-- Claim C3: delete_project removes every issue of the project, every
comment attached to those issues and the project row itself, while
get_issues for any other project id and the comments of any issue of
another project are unchanged. The hypothesis that stored issue ids are
pairwise distinct is the PRIMARY KEY invariant of the issues table. -/
theorem delete_project_cascades (s : BuildDB.State) (projId : Int)
    (hids : (s.issues.map Issue.id).Nodup) :
    ((BuildDB.delete_project s projId).2.issues.filter fun i =>
        i.project_id = some projId) = [] ∧
    ((BuildDB.delete_project s projId).2.comments.filter fun c =>
        c.issue_id ∈ (s.issues.filter fun i => i.project_id = some projId).map Issue.id) = [] ∧
    ((BuildDB.delete_project s projId).2.projects.filter fun p => p.id = projId) = [] ∧
    (∀ q : Int, q ≠ projId →
      BuildDB.get_issues (BuildDB.delete_project s projId).2 (some q) =
        BuildDB.get_issues s (some q)) ∧
    (∀ i ∈ s.issues, ∀ q : Int, q ≠ projId → i.project_id = some q →
      BuildDB.get_comments (BuildDB.delete_project s projId).2 i.id =
        BuildDB.get_comments s i.id) := by
  have hI : (BuildDB.delete_project s projId).2.issues =
      s.issues.filter fun i => ¬ i.project_id = some projId := rfl
  have hC : (BuildDB.delete_project s projId).2.comments =
      s.comments.filter fun c =>
        ¬ c.issue_id ∈ ((s.issues.filter fun i => i.project_id = some projId).map Issue.id) :=
    rfl
  have hP : (BuildDB.delete_project s projId).2.projects =
      s.projects.filter fun p => p.id ≠ projId := rfl
  refine ⟨?_, ?_, ?_, ?_, ?_⟩
  · rw [hI, List.filter_filter, List.filter_eq_nil_iff]
    intro a _
    simp only [Bool.and_eq_true, decide_eq_true_eq]
    tauto
  · rw [hC, List.filter_filter, List.filter_eq_nil_iff]
    intro a _
    simp only [Bool.and_eq_true, decide_eq_true_eq]
    tauto
  · rw [hP, List.filter_filter, List.filter_eq_nil_iff]
    intro a _
    simp only [Bool.and_eq_true, decide_eq_true_eq]
    tauto
  · intro q hq
    simp only [BuildDB.get_issues]
    rw [hI, List.filter_filter]
    congr 1
    apply List.filter_congr
    intro a _
    cases hd : decide (a.project_id = some q) with
    | false => simp
    | true =>
      have hpq : a.project_id = some q := of_decide_eq_true hd
      simp [hpq, Option.some.injEq, hq]
  · intro i hi q hq hpid
    simp only [BuildDB.get_comments]
    rw [hC, List.filter_filter]
    congr 1
    have hnot : ¬ i.id ∈ ((s.issues.filter fun j =>
        j.project_id = some projId).map Issue.id) := by
      intro hmem
      rcases List.mem_map.mp hmem with ⟨j, hj, hjid⟩
      have hj2 := List.mem_filter.mp hj
      have hji : j = i := List.inj_on_of_nodup_map hids hj2.1 hi hjid
      have hj3 : i.project_id = some projId := by
        rw [← hji]
        exact of_decide_eq_true hj2.2
      rw [hpid] at hj3
      exact hq (Option.some.inj hj3)
    apply List.filter_congr
    intro c _
    cases hd : decide (c.issue_id = i.id) with
    | false => simp
    | true =>
      have hcid : c.issue_id = i.id := of_decide_eq_true hd
      simp [hcid, hnot]

/-- A store with two projects, ids 1 and 2, one issue each and one
comment per issue, on which claim C3 is instantiated at project 1. -/
def bsCascade : BuildDB.State :=
  { projects :=
      [{ id := 1, name := "p1", description := none, version := some "0.1.0",
         status := "Active", created_date := "d1", last_updated := "d1" },
       { id := 2, name := "p2", description := none, version := some "0.1.0",
         status := "Active", created_date := "d1", last_updated := "d1" }],
    issues :=
      [{ id := 1, project_id := some 1, type := "Bug", title := "i1",
         description := none, priority := 1, status := "Open", assigned_to := none,
         created_date := "d2", due_date := none, tags := some "[]" },
       { id := 2, project_id := some 2, type := "Task", title := "i2",
         description := none, priority := 1, status := "Open", assigned_to := none,
         created_date := "d2", due_date := none, tags := some "[]" }],
    comments :=
      [{ id := 1, issue_id := 1, content := "c1", author := "u", created_date := "d3" },
       { id := 2, issue_id := 2, content := "c2", author := "u", created_date := "d3" }],
    tags := [], nextTagId := 1 }

theorem delete_project_cascades_witness :
    ((BuildDB.delete_project bsCascade 1).2.issues.filter fun i =>
        i.project_id = some 1) = [] ∧
    BuildDB.get_issues (BuildDB.delete_project bsCascade 1).2 (some 2) =
      BuildDB.get_issues bsCascade (some 2) :=
  ⟨(delete_project_cascades bsCascade 1 (by decide)).1,
   (delete_project_cascades bsCascade 1 (by decide)).2.2.2.1 2 (by decide)⟩
